import Mathlib

set_option maxRecDepth 8000

/-!
Verification of the teach-reach-data batch enrichment pipeline.

Shallow embedding of the Python sources:
* `src/transform.py` (`process_file`, `process_teachers_individually`,
  `apply_final_transformations`)
* `src/transformations/t_50_calculate_profile_completion.py` (`transform`)
* `src/utils/openai_utils.py` (`enrich_teacher_profile`, employment-history
  extraction and ranking)
* `src/utils/batch_openai_utils.py` (`batch_curriculum_and_school`)
* `src/utils/school_curriculum_mapping.py` (`load_school_curriculum_mapping`,
  `get_curriculum_for_school`)

Python/pandas cell values are modelled by `PyVal`; a dataframe row is an
association list from column name to `PyVal` (pandas keeps one global column
order; in every state reached here all rows share the same keys, so the
per-row representation is faithful).
-/
/-- A Python value as it can sit in a pandas cell or in an enrichment dict:
a string, `None`, the float `nan` (what `pd.read_csv` puts in a blank cell),
a bool, or an int. -/
inductive PyVal where
  | pstr (s : String)
  | pnone
  | pnan
  | pbool (b : Bool)
  | pint (n : Int)
deriving DecidableEq, Repr

/-- Python's `str()` on a `PyVal`.  `str(float('nan')) = 'nan'`,
`str(None) = 'None'`, `str(True) = 'True'`. -/
def PyVal.pyStr : PyVal → String
  | .pstr s => s
  | .pnone => "None"
  | .pnan => "nan"
  | .pbool b => if b then "True" else "False"
  | .pint n => toString n

/-- Models `pd.notna` on a scalar: `False` exactly for `None` and `nan`. -/
def PyVal.notna : PyVal → Bool
  | .pnone => false
  | .pnan => false
  | _ => true

/-- Models `pd.isna` on a scalar. -/
def PyVal.isna (v : PyVal) : Bool := !v.notna

/-- One dataframe row: column name to cell value, in column order. -/
abbrev Row := List (String × PyVal)

/-- First binding of column `c` in row `r` (pandas column lookup). -/
def rowGet (r : Row) (c : String) : Option PyVal :=
  (r.find? (fun p => p.1 = c)).map (·.2)

/-- Models `row.get(c, default)`. -/
def rowGetD (r : Row) (c : String) (d : PyVal) : PyVal :=
  (rowGet r c).getD d

/-- Models `df.at[idx, c] = v`: overwrite the existing column in place, or append a
new column at the end of the column order. -/
def setCell : Row → String → PyVal → Row
  | [], c, v => [(c, v)]
  | (c', v') :: rest, c, v =>
      if c' = c then (c, v) :: rest else (c', v') :: setCell rest c v

/-- The column names of a row, in order. -/
def rowCols (r : Row) : List String := r.map (·.1)

/-! ### Python string primitives, modelled at the character level -/
/-- ASCII whitespace as stripped by Python's `str.strip()`. -/
def isPyWs (c : Char) : Bool :=
  c = ' ' || c = '\t' || c = '\n' || c = '\x0d' || c = '\x0b' || c = '\x0c'

/-- Python `str.strip()` (default whitespace). -/
def pyStrip (s : String) : String :=
  ⟨((s.data.dropWhile isPyWs).reverse.dropWhile isPyWs).reverse⟩

/-- Python `str.lower()` on ASCII. -/
def pyLowerChar (c : Char) : Char :=
  if 'A' ≤ c ∧ c ≤ 'Z' then Char.ofNat (c.toNat + 32) else c

/-- Python `str.lower()`. -/
def pyLower (s : String) : String := ⟨s.data.map pyLowerChar⟩

/-- Models `needle in hay` on character sequences: some contiguous run of `hay`
equals `needle`. -/
def seqContains (n : List Char) : List Char → Bool
  | [] => n.isEmpty
  | c :: cs => n.isPrefixOf (c :: cs) || seqContains n cs

/-- Python's substring test `needle in hay`. -/
def strContainsSub (needle hay : String) : Bool :=
  seqContains needle.data hay.data

/-- Python `' '.join(parts)`. -/
def joinSpace : List String → String
  | [] => ""
  | [s] => s
  | s :: rest => s ++ " " ++ joinSpace rest

/-- A string has no space character. -/
def spaceFree (s : String) : Bool := s.data.all (· ≠ ' ')

/-! ### Python `float()` for the numeric-range validation -/
/-- Result of Python's `float()` on a string: `nan`, a signed infinity, or a
finite value, held exactly as `n * 10 ^ e`. -/
inductive PFloat where
  | nan
  | inf (neg : Bool)
  | num (n : Int) (e : Int)
deriving DecidableEq, Repr

/-- Digits to a natural number, most significant first. -/
def natOfDigits (l : List Char) : Nat :=
  l.foldl (fun a c => 10 * a + (c.toNat - 48)) 0

/-- Python `float(s)`: optional sign, then `nan`/`inf`/`infinity`
(case-insensitive) or a decimal literal with optional fraction and exponent.
`none` models the `ValueError` branch. -/
def pyFloatParse (s : String) : Option PFloat :=
  let cs0 := (pyStrip s).data.map pyLowerChar
  let sr : Bool × List Char :=
    match cs0 with
    | '+' :: r => (false, r)
    | '-' :: r => (true, r)
    | r => (false, r)
  let neg := sr.1
  let cs := sr.2
  if cs = ['n', 'a', 'n'] then some .nan
  else if cs = ['i', 'n', 'f'] ∨ cs = ['i', 'n', 'f', 'i', 'n', 'i', 't', 'y'] then
    some (.inf neg)
  else
    let ipr := cs.span Char.isDigit
    let fpr : List Char × List Char :=
      match ipr.2 with
      | '.' :: t => t.span Char.isDigit
      | r => ([], r)
    if ipr.1 = [] ∧ fpr.1 = [] then none
    else
      let expPart : Option Int :=
        match fpr.2 with
        | [] => some 0
        | 'e' :: t =>
            let esr : Bool × List Char :=
              match t with
              | '+' :: u => (false, u)
              | '-' :: u => (true, u)
              | u => (false, u)
            let edr := esr.2.span Char.isDigit
            if edr.1 = [] ∨ edr.2 ≠ [] then none
            else some ((if esr.1 then -1 else 1) * (natOfDigits edr.1 : Int))
        | _ => none
      match expPart with
      | none => none
      | some e =>
          some (.num ((if neg then -1 else 1) * (natOfDigits (ipr.1 ++ fpr.1) : Int))
            (e - fpr.1.length))

/-- Models `x < c` for a parsed float and an integer (IEEE: NaN compares false). -/
def PFloat.ltZ : PFloat → Int → Bool
  | .nan, _ => false
  | .inf neg, _ => neg
  | .num n e, c =>
      if 0 ≤ e then decide (n * 10 ^ e.toNat < c) else decide (n < c * 10 ^ (-e).toNat)

/-- Models `x > c` for a parsed float and an integer (IEEE: NaN compares false). -/
def PFloat.gtZ : PFloat → Int → Bool
  | .nan, _ => false
  | .inf neg, _ => !neg
  | .num n e, c =>
      if 0 ≤ e then decide (c < n * 10 ^ e.toNat) else decide (c * 10 ^ (-e).toNat < n)

/-! ### Profile completeness scorer
(`src/transformations/t_50_calculate_profile_completion.py`) -/
/-- The 14 required fields, in the order the scorer checks them. -/
def requiredFields : List String :=
  ["name", "headline", "linkedin_profile_url", "Email", "subject", "bio",
   "nationality", "preferred_grade_level", "curriculum_experience",
   "teaching_experience_years", "current_school", "school_website",
   "current_location_country", "current_location_city"]

/-- Placeholder tokens that make a field count as missing. -/
def missingTokens : List String := ["not specified", "unknown", "n/a", "none"]

/-- Models `field_validations['subject']['generic_values']`. -/
def subjectGenericValues : List String :=
  ["education", "general", "not specified", "unknown", ""]

/-- Models `field_validations['nationality']['generic_values']`. -/
def nationalityGenericValues : List String := ["not specified", "unknown", ""]

/-- Models `field_validations['preferred_grade_level']['valid_values']`. -/
def gradeLevelValidValues : List String :=
  ["Early Childhood (Ages 0-5)",
   "Elementary (Ages 6-10, Grades 1-5)",
   "Middle School (Ages 11-13, Grades 6-8)",
   "High School (Ages 14-18, Grades 9-12)",
   "University/College",
   "Adult Education"]

/-- Models `value = str(row.get(field, '')).strip()`. -/
def t50FieldValue (row : Row) (f : String) : String :=
  pyStrip (PyVal.pyStr (rowGetD row f (.pstr "")))

/-- The missing/empty/placeholder test of the scorer. -/
def isFieldMissing (v : String) : Bool :=
  v = "" || missingTokens.contains (pyLower v)

/-- The field-specific validations, applied only when the field is not
missing; at most one code per field thanks to the `elif` chain. -/
def validationCodes (f v : String) : List String :=
  if f = "subject" then
    if subjectGenericValues.contains (pyLower v) then [f ++ "_not_specific"] else []
  else if f = "nationality" then
    if nationalityGenericValues.contains (pyLower v) then [f ++ "_not_specific"] else []
  else if f = "preferred_grade_level" then
    if gradeLevelValidValues.contains v then [] else [f ++ "_invalid"]
  else if f = "teaching_experience_years" then
    match pyFloatParse v with
    | none => [f ++ "_invalid"]
    | some x => if x.ltZ 0 || x.gtZ 50 then [f ++ "_out_of_range"] else []
  else []

/-- All violation codes one field contributes for one row. -/
def fieldCodes (row : Row) (f : String) : List String :=
  if isFieldMissing (t50FieldValue row f) then [f ++ "_missing"]
  else validationCodes f (t50FieldValue row f)

/-- One iteration of the scorer's per-field loop: append this field's codes,
then deduct 5 (floored at 0) when the field is missing or `f"{field}_"` occurs
in `' '.join(missing_fields)`. -/
def scoreStep (row : Row) (st : Int × List String) (f : String) : Int × List String :=
  let miss := isFieldMissing (t50FieldValue row f)
  let mf := st.2 ++ fieldCodes row f
  (if miss || strContainsSub (f ++ "_") (joinSpace mf) then max 0 (st.1 - 5) else st.1, mf)

/-- The scorer's result for one row: final clamped score and the ordered
violation list. -/
def profileCompletionScore (row : Row) : Int × List String :=
  let r := requiredFields.foldl (scoreStep row) (50, [])
  (max 0 (min 50 r.1), r.2)

/-- Models `sep.join(parts)` for an arbitrary separator. -/
def joinWith (sep : String) : List String → String
  | [] => ""
  | [s] => s
  | s :: rest => s ++ sep ++ joinWith sep rest

/-- Models `json.dumps` of a list of plain strings. -/
def jsonDumpStrings (l : List String) : String :=
  "[" ++ joinWith ", " (l.map (fun s => "\x22" ++ s ++ "\x22")) ++ "]"

/-- The row with `profile_completion_percentage` and `missing_fields` written
back, as the scorer leaves a single row. -/
def t50Row (row : Row) : Row :=
  let r := profileCompletionScore row
  setCell (setCell row "profile_completion_percentage" (.pint r.1))
    "missing_fields" (.pstr (if r.2 = [] then "" else jsonDumpStrings r.2))

/-- Models `t50.transform` on a whole table (its `input_df` argument is unused). -/
def t50Transform (df : List Row) : List Row := df.map t50Row

/-! ### No cross-field collisions for the `f"{field}_" in ' '.join(...)` test -/
/-- The four shapes of violation codes. -/
def violSuffixes : List String := ["_missing", "_not_specific", "_invalid", "_out_of_range"]

/-- A record whose 14 checked fields are all present and valid except
`current_school`, `school_website` and `current_location_country`. -/
def rowMissing3 : Row :=
  [("name", .pstr "Ada Lovelace"), ("headline", .pstr "Mathematics Teacher"),
   ("linkedin_profile_url", .pstr "https://linkedin.example/ada"),
   ("Email", .pstr "ada@example.com"), ("subject", .pstr "Mathematics"),
   ("bio", .pstr "An educator."), ("nationality", .pstr "British"),
   ("preferred_grade_level", .pstr "High School (Ages 14-18, Grades 9-12)"),
   ("curriculum_experience", .pstr "British"),
   ("teaching_experience_years", .pstr "10"),
   ("current_school", .pstr ""), ("school_website", .pstr ""),
   ("current_location_country", .pstr ""),
   ("current_location_city", .pstr "Dubai")]

/-- A record with every one of the 14 checked fields empty. -/
def rowAllMissing : Row := requiredFields.map (fun f => (f, .pstr ""))

/-- A record that is fully valid except that `preferred_grade_level` holds a
NaN cell (a blank as read back by `pd.read_csv`). -/
def rowNanGrade : Row :=
  [("name", .pstr "Ada Lovelace"), ("headline", .pstr "Mathematics Teacher"),
   ("linkedin_profile_url", .pstr "https://linkedin.example/ada"),
   ("Email", .pstr "ada@example.com"), ("subject", .pstr "Mathematics"),
   ("bio", .pstr "An educator."), ("nationality", .pstr "British"),
   ("preferred_grade_level", .pnan),
   ("curriculum_experience", .pstr "British"),
   ("teaching_experience_years", .pstr "10"),
   ("current_school", .pstr "Example School"),
   ("school_website", .pstr "https://ex.sch"),
   ("current_location_country", .pstr "UAE"),
   ("current_location_city", .pstr "Dubai")]

/-! ### Generic assoc-map and Python value helpers used by the processor -/
/-- Python truthiness of a value (`bool(v)`); note `bool(float('nan'))` is
`True`. -/
def PyVal.pyTruthy : PyVal → Bool
  | .pstr s => s ≠ ""
  | .pnone => false
  | .pnan => true
  | .pbool b => b
  | .pint n => n ≠ 0

/-- Models `dict[k] = v` on an insertion-ordered dict: replace in place or append. -/
def assocSet : List (String × String) → String → String → List (String × String)
  | [], k, v => [(k, v)]
  | (k', v') :: rest, k, v =>
      if k' = k then (k, v) :: rest else (k', v') :: assocSet rest k v

/-- Dict lookup. -/
def assocGet (m : List (String × String)) (k : String) : Option String :=
  (m.find? (fun p => p.1 = k)).map (·.2)

/-- Python `str.replace(pat, repl)` (all occurrences), with fuel bounded by
the input length. -/
def replaceSeqFuel (pat repl : List Char) : Nat → List Char → List Char
  | 0, cs => cs
  | _ + 1, [] => []
  | fuel + 1, c :: cs =>
      if pat ≠ [] ∧ pat.isPrefixOf (c :: cs) then
        repl ++ replaceSeqFuel pat repl fuel (cs.drop (pat.length - 1))
      else c :: replaceSeqFuel pat repl fuel cs

/-- Python `s.replace(pat, repl)`. -/
def strReplace (s pat repl : String) : String :=
  ⟨replaceSeqFuel pat.data repl.data s.data.length s.data⟩

/-- Python `s.split(',')`. -/
def splitCommaAux : List Char → List Char → List String
  | acc, [] => [⟨acc.reverse⟩]
  | acc, c :: cs =>
      if c = ',' then ⟨acc.reverse⟩ :: splitCommaAux [] cs
      else splitCommaAux (c :: acc) cs

/-- Python `s.split(',')`. -/
def pySplitComma (s : String) : List String := splitCommaAux [] s.data

/-! ### Per-record merge (`src/transform.py` lines 142-144) -/
/-- The guard of the merge loop: `pd.notna(value) and str(value).strip()`. -/
def enrichedValueLands (v : PyVal) : Bool :=
  v.notna && !(pyStrip (PyVal.pyStr v) == "")

/-- Merging one teacher's enrichment dict into the row: each non-blank value
overwrites its column, blank (`None`/NaN/empty/whitespace) values are
skipped. -/
def mergeEnrichedData (row : Row) (enriched : List (String × PyVal)) : Row :=
  enriched.foldl
    (fun r kv => if enrichedValueLands kv.2 then setCell r kv.1 kv.2 else r) row

/-! ### Batch processor state (`src/transform.py`) -/
/-- A CSV file on disk: whether it exists, whether a header line has been
written, and its data rows. -/
structure CsvFile where
  present : Bool
  hasHeader : Bool
  rows : List Row
deriving DecidableEq, Repr

/-- Models `os.path.getsize(f) == 0`: nothing at all has been written. -/
def csvSizeZero (f : CsvFile) : Bool := !f.hasHeader && f.rows.isEmpty

/-- Models `df.to_csv(f, mode='a' if not write_header else 'w', header=write_header)`
for a single-row frame: header mode truncates and rewrites, append mode adds
one row. -/
def csvWrite (f : CsvFile) (writeHeader : Bool) (r : Row) : CsvFile :=
  if writeHeader then ⟨true, true, [r]⟩ else ⟨true, f.hasHeader, f.rows ++ [r]⟩

/-- The two durable files the run touches. -/
structure BatchState where
  output : CsvFile
  errorLog : CsvFile
deriving DecidableEq, Repr

/-- Both files absent, as before a fresh run. -/
def initialState : BatchState := ⟨⟨false, false, []⟩, ⟨false, false, []⟩⟩

/-- The oracle for one `enrich_teacher_profile` call (and anything else that
can raise inside the per-teacher `try` block before the row is written):
given the record index and the row, it yields the enrichment dict or an
exception message. -/
abbrev EnrichOracle := Nat → Row → Except String (List (String × PyVal))

/-- Models `teacher_name`: the `name` cell when the column exists, otherwise
`f"Teacher #{idx+1}"`. -/
def teacherDisplayName (i : Nat) (row : Row) : PyVal :=
  match rowGet row "name" with
  | some v => v
  | none => .pstr ("Teacher #" ++ toString (i + 1))

/-- The row appended to `error_log.csv` in the `except` branch. -/
def mkErrorRow (i : Nat) (row : Row) (e : String) : Row :=
  [("teacher_id", rowGetD row "teacher_id" (.pstr "UNKNOWN")),
   ("name", teacherDisplayName i row),
   ("error", .pstr e)]

/-- One iteration of the per-teacher loop: on success, merge the enrichment
into the row, optionally score it, and write it (`mode='w'` with header when
the file is absent, empty, or this is the first processed index; `mode='a'`
otherwise); on an exception, append one row to the Error Log and leave the
Output Table untouched. -/
def stepTeacher (oracle : EnrichOracle) (calcCompletion : Bool)
    (startIdx i : Nat) (row : Row) (st : BatchState) : BatchState :=
  match oracle i row with
  | .ok enriched =>
      let row2 :=
        if calcCompletion then t50Row (mergeEnrichedData row enriched)
        else mergeEnrichedData row enriched
      let wh := !st.output.present || csvSizeZero st.output || (i == startIdx)
      { st with output := csvWrite st.output wh row2 }
  | .error e =>
      let lh := !st.errorLog.present || csvSizeZero st.errorLog
      { st with errorLog := csvWrite st.errorLog lh (mkErrorRow i row e) }

/-- Models `process_teachers_individually(df, input_df, output_file,
calculate_completion, start_idx)`: iterate records `start_idx ..
len(df) - 1`; when nothing remains the function returns at once. -/
def processTeachersIndividually (oracle : EnrichOracle) (df : List Row)
    (calcCompletion : Bool) (startIdx : Nat) (st : BatchState) : BatchState :=
  (List.enumFrom startIdx (df.drop startIdx)).foldl
    (fun s p => stepTeacher oracle calcCompletion startIdx p.1 p.2 s) st

/-! ### `apply_final_transformations` (`src/transform.py` lines 189-264) -/
/-- The column set `apply_final_transformations` guarantees. -/
def requiredColumnsFinal : List String :=
  ["teacher_id", "name", "subject", "headline", "bio", "curriculum_experience",
   "teaching_experience_years", "current_location_country",
   "current_location_city", "nationality", "preferred_grade_level",
   "current_school", "school_website", "linkedin_url", "email", "source_id",
   "created_at", "is_currently_teacher", "profile_completion_percentage"]

/-- Models `df.columns` (all reachable frames have uniform rows, so the first row's
keys are the schema). -/
def dfCols (df : List Row) : List String :=
  match df with
  | [] => []
  | r :: _ => rowCols r

/-- Models `for col in required_columns: if col not in df.columns: df[col] = ''`. -/
def addMissingColumns (df : List Row) : List Row :=
  requiredColumnsFinal.foldl
    (fun d col =>
      if (dfCols d).contains col then d
      else d.map (fun r => r ++ [(col, .pstr "")])) df

/-- Apply `g` to one column of every row. -/
def colMap (df : List Row) (c : String) (g : PyVal → PyVal) : List Row :=
  df.map (fun r =>
    match rowGet r c with
    | some v => setCell r c (g v)
    | none => r)

/-- Models `Series.fillna(0)` elementwise. -/
def fillnaIntZero (v : PyVal) : PyVal := if v.isna then .pint 0 else v

/-- Sign-and-digits integer literal, for `astype(int)` on strings. -/
def pyParseInt (s : String) : Option Int :=
  match s.data with
  | [] => none
  | '-' :: ds => if ds ≠ [] ∧ ds.all Char.isDigit then some (-(natOfDigits ds : Int)) else none
  | ds => if ds.all Char.isDigit then some (natOfDigits ds : Int) else none

/-- Models `astype(int)` elementwise (on a cell `astype` cannot convert it raises;
that branch is never reached in any state considered here, and the cell is
left unchanged). -/
def cellToInt (v : PyVal) : PyVal :=
  match v with
  | .pint n => .pint n
  | .pbool b => .pint (if b then 1 else 0)
  | .pstr s =>
      match pyParseInt (pyStrip s) with
      | some n => .pint n
      | none => .pstr s
  | v => v

/-- Models `Series.fillna(False)` elementwise. -/
def fillnaFalse (v : PyVal) : PyVal := if v.isna then .pbool false else v

/-- Models `astype(bool)` elementwise: Python truthiness. -/
def cellToBool (v : PyVal) : PyVal := .pbool v.pyTruthy

/-- Drop one column from every row. -/
def dropColumn (df : List Row) (c : String) : List Row :=
  df.map (fun r => r.filter (fun p => p.1 ≠ c))

/-- The per-row body of the `current_location` migration loop. -/
def migrateLocationRow (r : Row) : Row :=
  let location := rowGetD r "current_location" (.pstr "")
  if !location.pyTruthy || location = .pstr "Not specified" then
    setCell (setCell r "current_location_country" (.pstr "United Arab Emirates"))
      "current_location_city" (.pstr "Dubai")
  else
    let parts := ((pySplitComma (PyVal.pyStr location)).map pyStrip).filter (· ≠ "")
    if 2 ≤ parts.length then
      setCell (setCell r "current_location_city" (.pstr (parts.headD "")))
        "current_location_country" (.pstr (parts.getLastD ""))
    else
      if strContainsSub (pyLower "UAE") (pyLower (PyVal.pyStr location))
          || strContainsSub (pyLower "United Arab Emirates")
              (pyLower (PyVal.pyStr location)) then
        setCell (setCell r "current_location_country" (.pstr "United Arab Emirates"))
          "current_location_city" (.pstr "Dubai")
      else
        setCell (setCell r "current_location_city"
            (.pstr (pyStrip (PyVal.pyStr location))))
          "current_location_country" (.pstr "United Arab Emirates")

/-- Models `if 'profile_completion_percentage' not in df.columns or
df['profile_completion_percentage'].isna().all(): df = t50.transform(df, ...)`. -/
def finalCompletionRecalc (df : List Row) : List Row :=
  if !(dfCols df).contains "profile_completion_percentage"
      || df.all (fun r => (rowGetD r "profile_completion_percentage" (.pstr "")).isna)
  then t50Transform df else df

/-- Models `df['profile_completion_percentage'] =
df['profile_completion_percentage'].fillna(0).astype(int)`. -/
def finalCompletionInt (df : List Row) : List Row :=
  if (dfCols df).contains "profile_completion_percentage"
  then colMap df "profile_completion_percentage" (fun v => cellToInt (fillnaIntZero v))
  else df

/-- The `current_location` → country/city migration block, entered only when
the column exists and the country column is still entirely blank. -/
def finalMigrateLocation (df : List Row) : List Row :=
  if (dfCols df).contains "current_location"
      && (df.all (fun r => (rowGetD r "current_location_country" (.pstr "")).isna)
          || df.all (fun r => rowGetD r "current_location_country" (.pstr "") = .pstr ""))
  then dropColumn (df.map migrateLocationRow) "current_location"
  else df

/-- Models `df['is_currently_teacher'] =
df['is_currently_teacher'].fillna(False).astype(bool)`. -/
def finalTeacherBool (df : List Row) : List Row :=
  if (dfCols df).contains "is_currently_teacher"
  then colMap df "is_currently_teacher" (fun v => cellToBool (fillnaFalse v))
  else df

/-- Models `apply_final_transformations`: ensure required columns, recompute the
completion score when absent or all-NaN, coerce the score to int, migrate
`current_location`, recompute completion once more (unconditionally), and
coerce `is_currently_teacher` to bool. -/
def applyFinalTransformations (df0 : List Row) : List Row :=
  finalTeacherBool (t50Transform (finalMigrateLocation (finalCompletionInt
    (finalCompletionRecalc (addMissingColumns df0)))))

/-- Models `process_file(input, output, batch_size, continue_from_existing)` after
the base transformations: `baseRows` is the base-transformed table (one row
per source record, already truncated to the batch size); the Output Table is
read back to decide the resume point.  Reading the existing file is modelled
as returning its rows unchanged. -/
def processFile (oracle : EnrichOracle) (baseRows : List Row)
    (continueFromExisting : Bool) (st : BatchState) : BatchState :=
  let total := baseRows.length
  if st.output.present && continueFromExisting then
    let existing := st.output.rows
    if total ≤ existing.length then
      { st with output := ⟨true, true, applyFinalTransformations (existing.take total)⟩ }
    else if 0 < existing.length then
      processTeachersIndividually oracle existing true existing.length st
    else
      processTeachersIndividually oracle baseRows true 0
        { st with output := ⟨true, true, baseRows⟩ }
  else
    processTeachersIndividually oracle baseRows true 0
      { st with output := ⟨true, true, baseRows⟩ }

/-- The row one successful loop iteration appends. -/
def okRowOf (oracle : EnrichOracle) (cc : Bool) (p : Nat × Row) : Option Row :=
  match oracle p.1 p.2 with
  | .ok enriched =>
      some (if cc then t50Row (mergeEnrichedData p.2 enriched)
            else mergeEnrichedData p.2 enriched)
  | .error _ => none

/-- The Error Log row one failing loop iteration appends. -/
def errRowOf (oracle : EnrichOracle) (p : Nat × Row) : Option Row :=
  match oracle p.1 p.2 with
  | .ok _ => none
  | .error e => some (mkErrorRow p.1 p.2 e)

/-- A one-record source table, base-transformed. -/
def c6Base : List Row := [[("teacher_id", .pstr "T1"), ("name", .pstr "Ada Lovelace")]]

/-- An enrichment oracle that always succeeds with a fixed dict. -/
def c6Oracle : EnrichOracle := fun _ _ =>
  .ok [("bio", .pstr "An educator."), ("subject_value", .pstr "Mathematics")]

/-- A full fresh run over `c6Base`: a completed Output Table of 1 row. -/
def c6Run1 : BatchState := processFile c6Oracle c6Base false initialState

/-- Re-running against the completed table with `continue_from_existing`. -/
def c6Run2 : BatchState := processFile c6Oracle c6Base true c6Run1

/-- A three-record source table, base-transformed. -/
def c5Base : List Row :=
  [[("name", .pstr "Teacher A")], [("name", .pstr "Teacher B")],
   [("name", .pstr "Teacher C")]]

/-- An oracle that raises only for record index 1. -/
def c5Oracle : EnrichOracle := fun i _ =>
  if i = 1 then .error "API failure" else .ok []

/-- A full fresh run over `c5Base` with the failing oracle. -/
def c5Run : BatchState := processFile c5Oracle c5Base false initialState

/-- A five-record source table, base-transformed. -/
def c2Base : List Row :=
  [[("teacher_id", .pstr "T0"), ("name", .pstr "N0")],
   [("teacher_id", .pstr "T1"), ("name", .pstr "N1")],
   [("teacher_id", .pstr "T2"), ("name", .pstr "N2")],
   [("teacher_id", .pstr "T3"), ("name", .pstr "N3")],
   [("teacher_id", .pstr "T4"), ("name", .pstr "N4")]]

/-- An oracle that raises only for record index 3 of 5. -/
def c2Oracle : EnrichOracle := fun i _ =>
  if i = 3 then .error "inference failure" else .ok []

/-- A full fresh run over `c2Base` with the index-3-failing oracle. -/
def c2Run : BatchState := processFile c2Oracle c2Base false initialState

/-! ### Employment history extraction and ranking
(`src/utils/openai_utils.py` lines 82-112, `src/utils/batch_openai_utils.py`
lines 311-340) -/
/-- One employment entry as the extraction loop builds it. -/
structure EmploymentEntry where
  organization : String
  title : String
  current : Bool
  start_date : String
  end_date : String
deriving DecidableEq, Repr

/-- The entry assembled from the sparse `employment_history/<i>/...` keys. -/
def employmentEntryAt (d : Row) (i : Nat) : EmploymentEntry :=
  { organization := pyStrip (PyVal.pyStr
      (rowGetD d ("employment_history/" ++ toString i ++ "/organization_name") (.pstr ""))),
    title := pyStrip (PyVal.pyStr
      (rowGetD d ("employment_history/" ++ toString i ++ "/title") (.pstr ""))),
    current := (rowGetD d ("employment_history/" ++ toString i ++ "/current")
      (.pbool false)).pyTruthy,
    start_date := pyStrip (PyVal.pyStr
      (rowGetD d ("employment_history/" ++ toString i ++ "/start_date") (.pstr ""))),
    end_date := pyStrip (PyVal.pyStr
      (rowGetD d ("employment_history/" ++ toString i ++ "/end_date") (.pstr ""))) }

/-- Filtering: keep an entry only when its organization name is nonempty and
not a placeholder token. -/
def keepEntry (e : EmploymentEntry) : Bool :=
  e.organization ≠ ""
  && !(["none", "n/a", "not specified"].contains (pyLower e.organization))

/-- The `while` discovery loop: consecutive indices from `i`, stopping at the
first missing `organization_name` key; the fuel only bounds the iteration
count (no dict can hold more indexed keys than it has entries). -/
def extractEmploymentAux (d : Row) : Nat → Nat → List EmploymentEntry
  | 0, _ => []
  | fuel + 1, i =>
      match rowGet d ("employment_history/" ++ toString i ++ "/organization_name") with
      | none => []
      | some _ =>
          (if keepEntry (employmentEntryAt d i) then [employmentEntryAt d i] else [])
            ++ extractEmploymentAux d fuel (i + 1)

/-- The filtered employment-entry list of one record. -/
def extractEmploymentHistory (d : Row) : List EmploymentEntry :=
  extractEmploymentAux d (d.length + 1) 0

/-- The second component of the sort key:
`x['start_date'] if x['start_date'] else '1900-01-01'`. -/
def employmentSortKeySnd (e : EmploymentEntry) : String :=
  if e.start_date = "" then "1900-01-01" else e.start_date

/-- Lexicographic `<` on code points, as Python compares strings. -/
def charListLt : List Char → List Char → Bool
  | [], [] => false
  | [], _ :: _ => true
  | _ :: _, [] => false
  | a :: as, b :: bs => if a < b then true else if a = b then charListLt as bs else false

/-- Python string `<`. -/
def pyStrLt (s t : String) : Bool := charListLt s.data t.data

/-- Python string `<=`. -/
def pyStrLe (s t : String) : Bool := s == t || pyStrLt s t

/-- Python tuple `<=` on the sort key
`(not x['current'], start_date or '1900-01-01')`. -/
def employmentKeyLe (x y : EmploymentEntry) : Bool :=
  decide ((!x.current).toNat < (!y.current).toNat)
  || ((!x.current) == (!y.current)
      && pyStrLe (employmentSortKeySnd x) (employmentSortKeySnd y))

/-- Stable descending insertion: `x` goes in front of the first element whose
key is `<=` its own (ties keep the original order, as Python's stable sort). -/
def insertRankedDesc (x : EmploymentEntry) :
    List EmploymentEntry → List EmploymentEntry
  | [] => [x]
  | y :: ys => if employmentKeyLe y x then x :: y :: ys else y :: insertRankedDesc x ys

/-- Models `employment_history.sort(key=lambda x: (not x['current'],
x['start_date'] if x['start_date'] else '1900-01-01'), reverse=True)`:
a stable sort into DESCENDING key order — `reverse=True` descends on the
whole tuple, so entries with `not current = True` (i.e. NON-current entries)
come first. -/
def sortEmploymentHistory : List EmploymentEntry → List EmploymentEntry
  | [] => []
  | x :: xs => insertRankedDesc x (sortEmploymentHistory xs)

/-- The spec's three-entry example, in input order. -/
def entry2015 : EmploymentEntry := ⟨"School A", "Teacher", false, "2015", ""⟩

/-- The current entry of the example. -/
def entry2020 : EmploymentEntry := ⟨"School B", "Teacher", true, "2020", ""⟩

/-- The most recent non-current entry of the example. -/
def entry2022 : EmploymentEntry := ⟨"School C", "Teacher", false, "2022", ""⟩

/-- The example record in the sparse indexed-key encoding. -/
def c3Dict : Row :=
  [("employment_history/0/organization_name", .pstr "School A"),
   ("employment_history/0/title", .pstr "Teacher"),
   ("employment_history/0/current", .pbool false),
   ("employment_history/0/start_date", .pstr "2015"),
   ("employment_history/1/organization_name", .pstr "School B"),
   ("employment_history/1/title", .pstr "Teacher"),
   ("employment_history/1/current", .pbool true),
   ("employment_history/1/start_date", .pstr "2020"),
   ("employment_history/2/organization_name", .pstr "School C"),
   ("employment_history/2/title", .pstr "Teacher"),
   ("employment_history/2/current", .pbool false),
   ("employment_history/2/start_date", .pstr "2022")]

/-! ### School curriculum resolution
(`src/utils/school_curriculum_mapping.py`) -/
/-- Models `load_school_curriculum_mapping()`, abstracted over the rows of the
reference CSV (`(school name, curriculum)` pairs): lowercases names, rewrites
the curriculum for GEMS (unless the name mentions "british") and SABIS
catalog entries, and also inserts the name without a trailing
`' school'`/`' academy'`. -/
def loadSchoolCurriculumMapping (csvRows : List (String × String)) :
    List (String × String) :=
  csvRows.foldl (fun m rc =>
    let schoolName := pyLower (pyStrip rc.1)
    let curriculum :=
      if strContainsSub "gems" schoolName
          && !(strContainsSub "british" (pyLower schoolName)) then "British"
      else if strContainsSub "sabis" (pyLower schoolName) then "IB"
      else pyStrip rc.2
    let m1 := assocSet m schoolName curriculum
    let m2 :=
      if strContainsSub "school" schoolName
      then assocSet m1 (pyStrip (strReplace schoolName " school" "")) curriculum
      else m1
    if strContainsSub "academy" schoolName
    then assocSet m2 (pyStrip (strReplace schoolName " academy" "")) curriculum
    else m2) []

/-- Models `get_curriculum_for_school(school_name, mapping)`: exact match first,
then the first partial (substring either way) match in insertion order, and
only AFTER those the hard-coded brand rules. -/
def getCurriculumForSchool (schoolName : String)
    (mapping : List (String × String)) : Option String :=
  if schoolName = "" then none
  else
    match assocGet mapping (pyStrip (pyLower schoolName)) with
    | some v => some v
    | none =>
        match mapping.find? (fun kv =>
            strContainsSub kv.1 (pyStrip (pyLower schoolName))
            || strContainsSub (pyStrip (pyLower schoolName)) kv.1) with
        | some kv => some kv.2
        | none =>
            if strContainsSub "gems" (pyStrip (pyLower schoolName)) then some "British"
            else if strContainsSub "sabis" (pyStrip (pyLower schoolName)) then some "IB"
            else if strContainsSub "raffles" (pyStrip (pyLower schoolName)) then some "IB"
            else if strContainsSub "american school" (pyStrip (pyLower schoolName)) then
              some "American"
            else if strContainsSub "british school" (pyStrip (pyLower schoolName)) then
              some "British"
            else none

/-! ### The inference boundary (`src/utils/openai_utils.py`,
`enrich_teacher_profile`) -/
/-- The fixed dictionary the `except` branch of `enrich_teacher_profile`
returns. -/
def enrichDefaultProfile : List (String × PyVal) :=
  [("subject", .pstr "Unknown"),
   ("bio", .pstr "Professional educator with teaching experience."),
   ("nationality", .pstr "Unknown"),
   ("preferred_grade_level", .pstr "Not specified"),
   ("is_currently_teacher", .pbool false),
   ("curriculum_experience", .pstr "Not specified"),
   ("teaching_experience_years", .pint 0),
   ("current_school", .pstr ""),
   ("school_website", .pstr ""),
   ("current_location_country", .pstr ""),
   ("current_location_city", .pstr "")]

/-- Models `enrich_teacher_profile` at its boundary: when `OPENAI_API_KEY` is unset
it RAISES `ValueError` before the `try` block; otherwise the whole `try`
body (API call, JSON parse, flattening, validation) is abstracted as
`tryOutcome`, and any exception in it is converted into the fixed default
profile. -/
def enrichTeacherProfile (apiKeyPresent : Bool)
    (tryOutcome : Except String (List (String × PyVal))) :
    Except String (List (String × PyVal)) :=
  if !apiKeyPresent then
    .error "OpenAI API key not found. Please set the OPENAI_API_KEY environment variable."
  else
    match tryOutcome with
    | .ok result => .ok result
    | .error _ => .ok enrichDefaultProfile

theorem rowGet_setCell_ne (r : Row) (c c' : String) (v : PyVal) (h : c' ≠ c) :
    rowGet (setCell r c v) c' = rowGet r c' := by
  induction r with
  | nil =>
      simp only [setCell, rowGet]
      rw [List.find?_cons_of_neg _ (by simpa using Ne.symm h), List.find?_nil]
  | cons p rest ih =>
      by_cases hc : p.1 = c
      · simp only [setCell, if_pos hc, rowGet]
        rw [List.find?_cons_of_neg _ (by simpa using Ne.symm h),
          List.find?_cons_of_neg _ (by simp [hc]; exact Ne.symm h)]
      · simp only [setCell, if_neg hc]
        by_cases hc' : p.1 = c'
        · simp only [rowGet]
          rw [List.find?_cons_of_pos _ (by simpa using hc'),
            List.find?_cons_of_pos _ (by simpa using hc')]
        · simp only [rowGet] at *
          rw [List.find?_cons_of_neg _ (by simpa using hc'),
            List.find?_cons_of_neg _ (by simpa using hc')]
          exact ih

theorem rowGet_setCell_self (r : Row) (c : String) (v : PyVal) :
    rowGet (setCell r c v) c = some v := by
  induction r with
  | nil => simp [setCell, rowGet]
  | cons p rest ih =>
      by_cases hc : p.1 = c
      · simp [setCell, if_pos hc, rowGet]
      · simp only [setCell, if_neg hc, rowGet] at *
        rw [List.find?_cons_of_neg _ (by simpa using hc)]
        exact ih

theorem seqContains_of_isPrefixOf {n h : List Char} (hp : n.isPrefixOf h = true) :
    seqContains n h = true := by
  cases h with
  | nil =>
      cases n with
      | nil => rfl
      | cons a as => simp [List.isPrefixOf] at hp
  | cons c cs => simp [seqContains, hp]

theorem isPrefixOf_append_space {n : List Char} (hsp : ∀ c ∈ n, c ≠ ' ') :
    ∀ u v : List Char, n.isPrefixOf (u ++ ' ' :: v) = n.isPrefixOf u := by
  induction n with
  | nil => intro u v; cases u <;> simp [List.isPrefixOf]
  | cons a as ih =>
      intro u v
      cases u with
      | nil =>
          have ha : a ≠ ' ' := hsp a (by simp)
          simp [List.isPrefixOf, ha]
      | cons b bs =>
          simp only [List.cons_append, List.isPrefixOf, List.append_eq]
          rw [ih (fun c hc => hsp c (by simp [hc]))]

theorem seqContains_append_space {n : List Char} (hne : n ≠ [])
    (hsp : ∀ c ∈ n, c ≠ ' ') :
    ∀ u v : List Char, seqContains n (u ++ ' ' :: v) = (seqContains n u || seqContains n v) := by
  intro u v
  induction u with
  | nil =>
      have h1 : n.isPrefixOf (' ' :: v) = false := by
        cases n with
        | nil => exact absurd rfl hne
        | cons a as =>
            have ha : a ≠ ' ' := hsp a (by simp)
            simp [List.isPrefixOf, ha]
      have h2 : seqContains n [] = false := by
        cases n with
        | nil => exact absurd rfl hne
        | cons a as => rfl
      show seqContains n (' ' :: v) = (seqContains n [] || seqContains n v)
      rw [h2, Bool.false_or]
      show (n.isPrefixOf (' ' :: v) || seqContains n v) = seqContains n v
      rw [h1, Bool.false_or]
  | cons b bs ih =>
      show (n.isPrefixOf (b :: (bs ++ ' ' :: v)) || seqContains n (bs ++ ' ' :: v)) = _
      rw [show (b :: (bs ++ ' ' :: v)) = ((b :: bs) ++ ' ' :: v) from rfl,
        isPrefixOf_append_space hsp (b :: bs) v, ih, ← Bool.or_assoc]
      rfl

theorem joinSpace_data (s : String) (r : List String) (hr : r ≠ []) :
    (joinSpace (s :: r)).data = s.data ++ ' ' :: (joinSpace r).data := by
  cases r with
  | nil => exact absurd rfl hr
  | cons t ts =>
      show (s ++ " " ++ joinSpace (t :: ts)).data = _
      rw [String.data_append, String.data_append]
      simp

/-- For a space-free nonempty needle and space-free parts, substring membership
in `' '.join(parts)` is membership in one of the parts. -/
theorem strContainsSub_joinSpace (n : String) (hne : n.data ≠ [])
    (hsp : spaceFree n = true) (parts : List String)
    (hparts : ∀ p ∈ parts, spaceFree p = true) :
    strContainsSub n (joinSpace parts) = parts.any (fun p => strContainsSub n p) := by
  induction parts with
  | nil =>
      have : seqContains n.data [] = false := by
        cases hd : n.data with
        | nil => exact absurd hd hne
        | cons a as => simp [seqContains]
      simpa [strContainsSub, joinSpace] using this
  | cons p ps ih =>
      cases ps with
      | nil => simp [joinSpace, List.any]
      | cons q qs =>
          have hsp' : ∀ c ∈ n.data, c ≠ ' ' := by
            intro c hc
            have := (List.all_eq_true.mp hsp) c hc
            simpa using this
          simp only [strContainsSub] at *
          rw [joinSpace_data p (q :: qs) (by simp),
            seqContains_append_space hne hsp' p.data (joinSpace (q :: qs)).data,
            List.any_cons]
          rw [ih (fun x hx => hparts x (by simp [hx]))]

theorem factNoCross : ∀ f ∈ requiredFields, ∀ g ∈ requiredFields, f ≠ g →
    ∀ s ∈ violSuffixes, strContainsSub (f ++ "_") (g ++ s) = false := by decide

theorem factOwn : ∀ f ∈ requiredFields, ∀ s ∈ violSuffixes,
    strContainsSub (f ++ "_") (f ++ s) = true := by decide

theorem factSpaceFree : ∀ f ∈ requiredFields,
    spaceFree (f ++ "_") = true ∧ (f ++ "_").data ≠ [] := by decide

theorem factCodesSpaceFree : ∀ g ∈ requiredFields, ∀ s ∈ violSuffixes,
    spaceFree (g ++ s) = true := by decide

theorem factNodup : requiredFields.Nodup := by decide

theorem validationCodes_mem {f v s : String} (h : s ∈ validationCodes f v) :
    ∃ t ∈ violSuffixes, s = f ++ t := by
  unfold validationCodes at h
  repeat' split at h
  all_goals (try (exact absurd h (List.not_mem_nil s)))
  all_goals (rw [List.mem_singleton] at h; subst h)
  all_goals first
    | exact ⟨"_not_specific", by simp [violSuffixes], rfl⟩
    | exact ⟨"_invalid", by simp [violSuffixes], rfl⟩
    | exact ⟨"_out_of_range", by simp [violSuffixes], rfl⟩

theorem fieldCodes_mem {row : Row} {f s : String} (h : s ∈ fieldCodes row f) :
    ∃ t ∈ violSuffixes, s = f ++ t := by
  unfold fieldCodes at h
  split at h
  · exact ⟨"_missing", by simp [violSuffixes], by simpa using h⟩
  · exact validationCodes_mem h

theorem foldl_clampSub {α : Type} (l : List α) (c : Int) (hc : 0 ≤ c) :
    l.foldl (fun a _ => max 0 (a - 5)) c = max 0 (c - 5 * l.length) := by
  induction l generalizing c with
  | nil => simp; omega
  | cons x xs ih =>
      simp only [List.foldl_cons, List.length_cons]
      rw [ih _ (le_max_left 0 _)]
      push_cast
      omega

/-- The deduction condition of one loop iteration is exactly "this field
contributed at least one violation code": the accumulated earlier codes can
never contain `f"{field}_"` for a different field. -/
theorem scoreStep_deduct (row : Row) (f : String) (hf : f ∈ requiredFields)
    (mf0 : List String)
    (hmf0 : ∀ s ∈ mf0, ∃ g t, g ∈ requiredFields ∧ g ≠ f ∧ t ∈ violSuffixes ∧ s = g ++ t) :
    (isFieldMissing (t50FieldValue row f)
      || strContainsSub (f ++ "_") (joinSpace (mf0 ++ fieldCodes row f)))
      = !(fieldCodes row f).isEmpty := by
  by_cases hm : isFieldMissing (t50FieldValue row f) = true
  · simp [fieldCodes, hm]
  · have hm' : isFieldMissing (t50FieldValue row f) = false := by simpa using hm
    have hfc : fieldCodes row f = validationCodes f (t50FieldValue row f) := by
      simp [fieldCodes, hm']
    rw [hm', Bool.false_or, hfc]
    have hne := (factSpaceFree f hf).2
    have hsp := (factSpaceFree f hf).1
    have hparts : ∀ p ∈ mf0 ++ validationCodes f (t50FieldValue row f),
        spaceFree p = true := by
      intro p hp
      rcases List.mem_append.mp hp with hp | hp
      · obtain ⟨g, t, hg, _, ht, rfl⟩ := hmf0 p hp
        exact factCodesSpaceFree g hg t ht
      · obtain ⟨t, ht, rfl⟩ := validationCodes_mem hp
        exact factCodesSpaceFree f hf t ht
    rw [strContainsSub_joinSpace _ hne hsp _ hparts, List.any_append]
    have hmf0false : mf0.any (fun p => strContainsSub (f ++ "_") p) = false := by
      rw [List.any_eq_false]
      intro p hp
      obtain ⟨g, t, hg, hgf, ht, rfl⟩ := hmf0 p hp
      simp [factNoCross f hf g hg (Ne.symm hgf) t ht]
    rw [hmf0false, Bool.false_or]
    cases hc : validationCodes f (t50FieldValue row f) with
    | nil => simp
    | cons a as =>
        have ha : strContainsSub (f ++ "_") a = true := by
          obtain ⟨t, ht, hat⟩ := validationCodes_mem
            (show a ∈ validationCodes f (t50FieldValue row f) by
              rw [hc]; exact List.mem_cons_self a as)
          rw [hat]; exact factOwn f hf t ht
        simp [List.any_cons, ha]

/-- Full characterisation of the scorer's per-field loop. -/
theorem scoreFold (row : Row) :
    ∀ (fs : List String) (c : Int) (mf0 : List String),
      0 ≤ c → fs.Nodup → (∀ f ∈ fs, f ∈ requiredFields) →
      (∀ s ∈ mf0, ∃ g t, g ∈ requiredFields ∧ g ∉ fs ∧ t ∈ violSuffixes ∧ s = g ++ t) →
      fs.foldl (scoreStep row) (c, mf0) =
        ((fs.filter (fun f => !(fieldCodes row f).isEmpty)).foldl
            (fun a _ => max 0 (a - 5)) c,
         mf0 ++ (fs.map (fieldCodes row)).flatten) := by
  intro fs
  induction fs with
  | nil => intro c mf0 _ _ _ _; simp
  | cons f fs' ih =>
      intro c mf0 hc hnd hfs hmf0
      have hf : f ∈ requiredFields := hfs f (by simp)
      have hded := scoreStep_deduct row f hf mf0 (fun s hs => by
        obtain ⟨g, t, hg, hgfs, ht, rfl⟩ := hmf0 s hs
        exact ⟨g, t, hg, fun he => hgfs (he ▸ List.mem_cons_self f fs'), ht, rfl⟩)
      have hstep : scoreStep row (c, mf0) f =
          (if !(fieldCodes row f).isEmpty then max 0 (c - 5) else c,
           mf0 ++ fieldCodes row f) := by
        simp only [scoreStep]
        rw [hded]
      rw [List.foldl_cons, hstep]
      have hc' : 0 ≤ (if !(fieldCodes row f).isEmpty then max 0 (c - 5) else c) := by
        split
        · exact le_max_left 0 _
        · exact hc
      have hmf0' : ∀ s ∈ mf0 ++ fieldCodes row f,
          ∃ g t, g ∈ requiredFields ∧ g ∉ fs' ∧ t ∈ violSuffixes ∧ s = g ++ t := by
        intro s hs
        rcases List.mem_append.mp hs with hs | hs
        · obtain ⟨g, t, hg, hgfs, ht, rfl⟩ := hmf0 s hs
          exact ⟨g, t, hg, fun hin => hgfs (List.mem_cons_of_mem f hin), ht, rfl⟩
        · obtain ⟨t, ht, rfl⟩ := fieldCodes_mem hs
          exact ⟨f, t, hf, (List.nodup_cons.mp hnd).1, ht, rfl⟩
      rw [ih _ _ hc' (List.nodup_cons.mp hnd).2
        (fun g hg => hfs g (List.mem_cons_of_mem f hg)) hmf0']
      rw [List.filter_cons]
      by_cases hfc : (fieldCodes row f).isEmpty = true
      · have h0 : fieldCodes row f = [] := by simpa using hfc
        simp [hfc, h0]
      · have hfc2 : (fieldCodes row f).isEmpty = false := by simpa using hfc
        simp [hfc2, List.append_assoc]

/-- The scorer computes exactly `clamp(50 - 5 * #violating fields)` together
with the concatenated per-field violation codes in field order. -/
theorem t50_score_eq (row : Row) :
    profileCompletionScore row =
      (max 0 (min 50 (50 - 5 *
          ((requiredFields.filter (fun f => !(fieldCodes row f).isEmpty)).length : Int))),
       (requiredFields.map (fieldCodes row)).flatten) := by
  unfold profileCompletionScore
  rw [scoreFold row requiredFields 50 [] (by norm_num) factNodup (fun f hf => hf)
    (by simp)]
  rw [foldl_clampSub _ 50 (by norm_num)]
  have hK : (0 : Int) ≤ ((requiredFields.filter
      (fun f => !(fieldCodes row f).isEmpty)).length : Int) := Int.natCast_nonneg _
  simp only
  congr 1
  omega

/-- C4: the completeness score equals 50 minus 5 points for each of the 14
required fields that contributes at least one violation code — a single field
costs exactly 5 regardless of how many codes it produced — clamped to
`[0, 50]`; a record missing exactly 3 of the 14 fields (and nothing else
wrong) scores 35, and a record missing all 14 scores 0, never a negative
number. -/
theorem claim_C4_completion_scoring :
    (∀ row : Row, (profileCompletionScore row).1 =
      max 0 (min 50 (50 - 5 * ((requiredFields.filter
        (fun f => !(fieldCodes row f).isEmpty)).length : Int))))
    ∧ (profileCompletionScore rowMissing3).1 = 35
    ∧ (profileCompletionScore rowMissing3).2 =
        ["current_school_missing", "school_website_missing",
         "current_location_country_missing"]
    ∧ (profileCompletionScore rowAllMissing).1 = 0 := by
  refine ⟨fun row => ?_, by decide, by decide, by decide⟩
  rw [t50_score_eq row]

/-- C10 counterexample: a NaN in the enum-validated `preferred_grade_level`
field indeed produces no `_missing` violation, but the stringified value
`'nan'` fails the closed-set check, is flagged `_invalid`, and the record
still loses 5 points (score 45, not 50) — refuting the claim's "no point
deduction". -/
theorem claim_C10_counterexample :
    (profileCompletionScore rowNanGrade).2 = ["preferred_grade_level_invalid"]
    ∧ (profileCompletionScore rowNanGrade).1 = 45 :=
  ⟨by decide, by decide⟩

/-- C10 (amended): a checked field holding float NaN is stringified to the
literal `'nan'`, which is neither empty nor a recognized placeholder token,
so the field never produces a `_missing` violation; for every checked field
other than `preferred_grade_level` it produces no violation and no deduction
(for `teaching_experience_years`, `float('nan')` parses and both range
comparisons are false), but for the enum-validated `preferred_grade_level`
field `'nan'` is flagged `_invalid` and the field still costs 5 points.  A
field holding the empty string is, by contrast, flagged `_missing`. -/
theorem claim_C10_amended :
    (∀ (row : Row) (f : String), f ∈ requiredFields →
      rowGet row f = some .pnan →
      fieldCodes row f =
        if f = "preferred_grade_level" then ["preferred_grade_level_invalid"] else [])
    ∧ (∀ (row : Row) (f : String), f ∈ requiredFields →
      rowGet row f = some (.pstr "") →
      fieldCodes row f = [f ++ "_missing"]) := by
  constructor
  · intro row f hf hv
    have hgd : rowGetD row f (.pstr "") = .pnan := by simp [rowGetD, hv]
    have hval : t50FieldValue row f = "nan" := by
      simp only [t50FieldValue, hgd]; decide
    simp only [fieldCodes, hval]
    fin_cases hf <;> decide
  · intro row f _ hv
    have hgd : rowGetD row f (.pstr "") = .pstr "" := by simp [rowGetD, hv]
    have hval : t50FieldValue row f = "" := by
      simp only [t50FieldValue, hgd]; decide
    simp [fieldCodes, hval, show isFieldMissing "" = true from by decide]

/-- Closed instantiation of `claim_C10_amended` at concrete inputs. -/
theorem claim_C10_amended_witness :
    fieldCodes [("subject", PyVal.pnan)] "subject" = []
    ∧ fieldCodes [("subject", PyVal.pstr "")] "subject" = ["subject_missing"] := by
  constructor
  · have h := claim_C10_amended.1 [("subject", PyVal.pnan)] "subject"
      (by decide) (by decide)
    simpa using h
  · exact claim_C10_amended.2 [("subject", PyVal.pstr "")] "subject"
      (by decide) (by decide)

theorem csvWrite_present (f : CsvFile) (wh : Bool) (r : Row) :
    (csvWrite f wh r).present = true := by
  unfold csvWrite; split <;> rfl

theorem errWrite_rows (f : CsvFile) (hwf : f.present = false → f.rows = [])
    (r : Row) :
    (csvWrite f (!f.present || csvSizeZero f) r).rows = f.rows ++ [r] := by
  unfold csvWrite csvSizeZero
  by_cases hp : f.present = true
  · simp only [hp, Bool.not_true, Bool.false_or]
    by_cases hh : f.hasHeader = true
    · simp [hh]
    · have hh' : f.hasHeader = false := by simpa using hh
      simp only [hh', Bool.not_false, Bool.true_and]
      by_cases he : f.rows.isEmpty = true
      · rw [if_pos he, List.isEmpty_iff.mp he]
        rfl
      · simp [he]
  · have hp' : f.present = false := by simpa using hp
    rw [hwf hp']
    simp [hp']

theorem enumFrom_index_ge {α : Type} :
    ∀ (l : List α) (n : Nat) (p : Nat × α), p ∈ List.enumFrom n l → n ≤ p.1 := by
  intro l
  induction l with
  | nil => intro n p hp; simp [List.enumFrom] at hp
  | cons x xs ih =>
      intro n p hp
      rcases List.mem_cons.mp hp with h | h
      · subst h; exact le_refl n
      · exact Nat.le_of_succ_le (ih (n + 1) p h)

/-- Characterisation of the per-teacher loop when every processed index
differs from `startIdx`: successful rows append to the Output Table,
exceptions append to the Error Log. -/
theorem loopAppend (oracle : EnrichOracle) (cc : Bool) (startIdx : Nat) :
    ∀ (pairs : List (Nat × Row)) (st : BatchState),
      st.output.present = true → csvSizeZero st.output = false →
      (st.errorLog.present = false → st.errorLog.rows = []) →
      (∀ p ∈ pairs, p.1 ≠ startIdx) →
      (pairs.foldl (fun s p => stepTeacher oracle cc startIdx p.1 p.2 s) st).output.rows
          = st.output.rows ++ pairs.filterMap (okRowOf oracle cc)
      ∧ (pairs.foldl (fun s p => stepTeacher oracle cc startIdx p.1 p.2 s) st).errorLog.rows
          = st.errorLog.rows ++ pairs.filterMap (errRowOf oracle) := by
  intro pairs
  induction pairs with
  | nil => intro st _ _ _ _; simp
  | cons p ps ih =>
      intro st h1 h2 h3 hidx
      simp only [List.foldl_cons, List.filterMap_cons]
      rcases ho : oracle p.1 p.2 with e | enriched
      · -- exception: only the Error Log changes
        have hstep : stepTeacher oracle cc startIdx p.1 p.2 st =
            { st with errorLog := (csvWrite st.errorLog
                (!st.errorLog.present || csvSizeZero st.errorLog)
                (mkErrorRow p.1 p.2 e)) } := by
          simp [stepTeacher, ho]
        rw [hstep]
        obtain ⟨ha, hb⟩ := ih
          { st with errorLog := (csvWrite st.errorLog
              (!st.errorLog.present || csvSizeZero st.errorLog)
              (mkErrorRow p.1 p.2 e)) }
          h1 h2
          (by intro hfalse; rw [csvWrite_present] at hfalse; exact absurd hfalse (by simp))
          (fun q hq => hidx q (List.mem_cons_of_mem p hq))
        refine ⟨?_, ?_⟩
        · rw [ha]
          simp [okRowOf, errRowOf, ho]
        · rw [hb, errWrite_rows st.errorLog h3 (mkErrorRow p.1 p.2 e)]
          simp [okRowOf, errRowOf, ho]
      · -- success: one row appended to the Output Table
        have hne : (p.1 == startIdx) = false := by
          simpa using hidx p (List.mem_cons_self p ps)
        have hwh : (!st.output.present || csvSizeZero st.output || (p.1 == startIdx))
            = false := by
          rw [h1, h2, hne]; rfl
        have hstep : stepTeacher oracle cc startIdx p.1 p.2 st =
            { st with output := ⟨true, st.output.hasHeader,
                st.output.rows ++ [if cc then t50Row (mergeEnrichedData p.2 enriched)
                                   else mergeEnrichedData p.2 enriched]⟩ } := by
          simp only [stepTeacher, ho, hwh]
          rfl
        rw [hstep]
        have h2' : csvSizeZero ⟨true, st.output.hasHeader,
            st.output.rows ++ [if cc then t50Row (mergeEnrichedData p.2 enriched)
                               else mergeEnrichedData p.2 enriched]⟩ = false := by
          simp [csvSizeZero]
        obtain ⟨ha, hb⟩ := ih
          { st with output := ⟨true, st.output.hasHeader,
              st.output.rows ++ [if cc then t50Row (mergeEnrichedData p.2 enriched)
                                 else mergeEnrichedData p.2 enriched]⟩ }
          rfl h2' h3
          (fun q hq => hidx q (List.mem_cons_of_mem p hq))
        refine ⟨?_, ?_⟩
        · rw [ha]
          simp [okRowOf, errRowOf, ho, List.append_assoc]
        · rw [hb]
          simp [okRowOf, errRowOf, ho]

theorem filterMap_all_ok (oracle : EnrichOracle) (f : Nat → Row → List (String × PyVal))
    (hok : ∀ i r, oracle i r = .ok (f i r)) (cc : Bool) :
    ∀ pairs : List (Nat × Row),
      pairs.filterMap (okRowOf oracle cc) =
        pairs.map (fun p => if cc then t50Row (mergeEnrichedData p.2 (f p.1 p.2))
                            else mergeEnrichedData p.2 (f p.1 p.2))
      ∧ pairs.filterMap (errRowOf oracle) = [] := by
  intro pairs
  induction pairs with
  | nil => simp
  | cons p ps ih =>
      refine ⟨?_, ?_⟩
      · rw [List.filterMap_cons, List.map_cons]
        simp only [okRowOf, hok p.1 p.2]
        rw [ih.1]
      · rw [List.filterMap_cons]
        simp only [errRowOf, hok p.1 p.2]
        rw [ih.2]

/-- A fresh run (`continue_from_existing = False`) in which every record's
enrichment succeeds writes exactly one enriched, scored row per base row, in
order, and leaves the Error Log untouched. -/
theorem processFile_all_ok (oracle : EnrichOracle)
    (f : Nat → Row → List (String × PyVal)) (baseRows : List Row)
    (st : BatchState) (hwf : st.errorLog.present = false → st.errorLog.rows = [])
    (hok : ∀ i r, oracle i r = .ok (f i r)) :
    (processFile oracle baseRows false st).output.rows =
      (List.enumFrom 0 baseRows).map (fun p => t50Row (mergeEnrichedData p.2 (f p.1 p.2)))
    ∧ (processFile oracle baseRows false st).errorLog.rows = st.errorLog.rows := by
  have hPF : processFile oracle baseRows false st =
      processTeachersIndividually oracle baseRows true 0
        { st with output := ⟨true, true, baseRows⟩ } := by
    simp [processFile]
  rw [hPF]
  unfold processTeachersIndividually
  rw [List.drop_zero]
  cases baseRows with
  | nil => simp
  | cons r0 rest =>
      have henum : List.enumFrom 0 (r0 :: rest) = (0, r0) :: List.enumFrom 1 rest := rfl
      rw [henum, List.foldl_cons]
      have hstep0 : stepTeacher oracle true 0 0 r0
          { st with output := ⟨true, true, r0 :: rest⟩ } =
          { st with output := ⟨true, true, [t50Row (mergeEnrichedData r0 (f 0 r0))]⟩ } := by
        simp [stepTeacher, hok 0 r0, csvWrite]
      rw [hstep0]
      obtain ⟨ha, hb⟩ := loopAppend oracle true 0 (List.enumFrom 1 rest)
        { st with output := ⟨true, true, [t50Row (mergeEnrichedData r0 (f 0 r0))]⟩ }
        rfl (by simp [csvSizeZero]) hwf
        (fun p hp => by have := enumFrom_index_ge rest 1 p hp; omega)
      rw [ha, hb]
      obtain ⟨hmap, herr⟩ := filterMap_all_ok oracle f hok true (List.enumFrom 1 rest)
      rw [hmap, herr]
      simp

/-- C1: on resume, `process_file` passes the partial table itself as `df`
together with `start_idx = len(existing)`, so `process_teachers_individually`
sees zero remaining records: the whole resumed run is a no-op that changes
neither the Output Table nor the Error Log and enriches nothing. -/
theorem claim_C1_resume_noop (oracle : EnrichOracle) (baseRows : List Row)
    (st : BatchState) (hp : st.output.present = true)
    (h0 : 0 < st.output.rows.length)
    (hN : st.output.rows.length < baseRows.length) :
    processFile oracle baseRows true st = st := by
  unfold processFile
  rw [hp]
  have hnot : ¬ (baseRows.length ≤ st.output.rows.length) := by omega
  simp only [Bool.true_and, if_true]
  rw [if_neg hnot, if_pos h0]
  unfold processTeachersIndividually
  rw [List.drop_length]
  rfl

/-- Closed instantiation of `claim_C1_resume_noop`: a source of 2 records and
an Output Table holding exactly 1 row; the "resumed" run returns the state
unchanged (1 row, nothing enriched) instead of producing 2 rows. -/
theorem claim_C1_resume_noop_witness :
    processFile (fun _ _ => Except.ok [])
      [[("name", PyVal.pstr "Teacher A")], [("name", PyVal.pstr "Teacher B")]] true
      ⟨⟨true, true, [[("name", PyVal.pstr "Teacher A")]]⟩, ⟨false, false, []⟩⟩ =
      ⟨⟨true, true, [[("name", PyVal.pstr "Teacher A")]]⟩, ⟨false, false, []⟩⟩ :=
  claim_C1_resume_noop _ _ _ rfl (by decide) (by decide)

theorem addMissingColumns_length (df : List Row) :
    (addMissingColumns df).length = df.length := by
  unfold addMissingColumns
  generalize requiredColumnsFinal = cols
  induction cols generalizing df with
  | nil => rfl
  | cons c cs ih =>
      rw [List.foldl_cons]
      by_cases h : (dfCols df).contains c
      · rw [if_pos h]; exact ih df
      · rw [if_neg h, ih (df.map _)]
        simp

theorem t50Transform_length (df : List Row) :
    (t50Transform df).length = df.length := by simp [t50Transform]

theorem applyFinalTransformations_length (df : List Row) :
    (applyFinalTransformations df).length = df.length := by
  unfold applyFinalTransformations finalTeacherBool finalMigrateLocation
    finalCompletionInt finalCompletionRecalc
  split_ifs <;>
    simp [addMissingColumns_length, t50Transform_length, colMap, dropColumn]

/-- C6 (amended): re-running against a complete Output Table takes the
completion branch: the result does not depend on the enrichment oracle at
all (no inference calls, no appended rows, untouched Error Log), but the
file is rewritten as `apply_final_transformations` of the first `total`
existing rows — row count and order are preserved, byte-identity is not. -/
theorem claim_C6_amended (o1 o2 : EnrichOracle) (baseRows : List Row)
    (st : BatchState) (hp : st.output.present = true)
    (hk : baseRows.length ≤ st.output.rows.length) :
    processFile o1 baseRows true st = processFile o2 baseRows true st
    ∧ (processFile o1 baseRows true st).output.rows =
        applyFinalTransformations (st.output.rows.take baseRows.length)
    ∧ (processFile o1 baseRows true st).output.rows.length = baseRows.length
    ∧ (processFile o1 baseRows true st).errorLog = st.errorLog := by
  have hbranch : ∀ o : EnrichOracle, processFile o baseRows true st =
      { st with output := ⟨true, true,
          applyFinalTransformations (st.output.rows.take baseRows.length)⟩ } := by
    intro o
    unfold processFile
    rw [hp]
    rw [if_pos (show (true && true) = true from rfl)]
    rw [if_pos hk]
  refine ⟨?_, ?_, ?_, ?_⟩
  · rw [hbranch o1, hbranch o2]
  · rw [hbranch o1]
  · rw [hbranch o1, applyFinalTransformations_length, List.length_take]
    exact Nat.min_eq_left hk
  · rw [hbranch o1]

/-- Closed instantiation of `claim_C6_amended`. -/
theorem claim_C6_amended_witness :
    (processFile (fun _ _ => Except.ok ([] : List (String × PyVal)))
        [[("name", PyVal.pstr "A")]] true
        ⟨⟨true, true, [[("name", PyVal.pstr "A")]]⟩, ⟨false, false, []⟩⟩).output.rows.length
      = 1 :=
  (claim_C6_amended _ (fun _ _ => Except.error "x") _ _ rfl (by decide)).2.2.1

/-- C6 counterexample: the second run reaches the completion stage without
enrichment, but `apply_final_transformations` rewrites the table (adding the
missing required columns such as `subject` and `is_currently_teacher` and
re-coercing values), so the resulting Output Table is NOT identical to the
completed one. -/
theorem claim_C6_counterexample :
    c6Run1.output.rows.length = 1
    ∧ c6Run2.output.rows.length = 1
    ∧ c6Run2.output.rows ≠ c6Run1.output.rows := by
  refine ⟨by decide, by decide, by decide⟩

/-- C5 counterexample: when record index 1 of 3 fails, its row is never
written — the `except` branch only logs the error — so the final Output
Table has 2 rows, not one row per source record. -/
theorem claim_C5_counterexample :
    c5Base.length = 3 ∧ c5Run.output.rows.length = 2
    ∧ c5Run.output.rows.length ≠ c5Base.length
    ∧ c5Run.errorLog.rows =
        [[("teacher_id", .pstr "UNKNOWN"), ("name", .pstr "Teacher B"),
          ("error", .pstr "API failure")]] := by
  refine ⟨by decide, by decide, by decide, by decide⟩

/-- C5 (amended): after a full fresh run in which every record's enrichment
succeeds, the Output Table contains exactly one enriched, scored row per
source record, in source order. -/
theorem claim_C5_amended (oracle : EnrichOracle)
    (f : Nat → Row → List (String × PyVal)) (baseRows : List Row)
    (st : BatchState)
    (hwf : st.errorLog.present = false → st.errorLog.rows = [])
    (hok : ∀ i r, oracle i r = .ok (f i r)) :
    (processFile oracle baseRows false st).output.rows =
      (List.enumFrom 0 baseRows).map
        (fun p => t50Row (mergeEnrichedData p.2 (f p.1 p.2)))
    ∧ (processFile oracle baseRows false st).output.rows.length = baseRows.length := by
  obtain ⟨h1, _⟩ := processFile_all_ok oracle f baseRows st hwf hok
  refine ⟨h1, ?_⟩
  rw [h1, List.length_map, List.enumFrom_length]

/-- Closed instantiation of `claim_C5_amended`. -/
theorem claim_C5_amended_witness :
    (processFile (fun _ _ => Except.ok ([] : List (String × PyVal)))
      [[("name", PyVal.pstr "Teacher A")]] false initialState).output.rows.length = 1 :=
  (claim_C5_amended (fun _ _ => .ok []) (fun _ _ => []) _ initialState
    (fun _ => rfl) (fun _ _ => rfl)).2

/-- C2 counterexample: the exception for record 3 is caught and logged
(exactly one Error Log entry naming `T3`), and processing continues — but
record 3's row is NOT appended to the Output Table, which ends with 4 rows,
not 5. -/
theorem claim_C2_counterexample :
    c2Run.output.rows.length = 4 ∧ c2Run.output.rows.length ≠ 5
    ∧ c2Run.errorLog.rows =
        [[("teacher_id", .pstr "T3"), ("name", .pstr "N3"),
          ("error", .pstr "inference failure")]] := by
  refine ⟨by decide, by decide, by decide⟩

/-- C2 (amended): when the enrichment oracle throws only for record index 3
of 5, the exception is caught, one `(teacher_id, name, error)` row is
appended to the Error Log, processing continues with the next record, and
the failed record's row is simply absent from the Output Table: 4 rows out
of 5, Error Log exactly 1 entry. -/
theorem claim_C2_amended (oracle : EnrichOracle) (r0 r1 r2 r3 r4 : Row)
    (g : Nat → List (String × PyVal)) (em : String)
    (h0 : oracle 0 r0 = .ok (g 0)) (h1 : oracle 1 r1 = .ok (g 1))
    (h2 : oracle 2 r2 = .ok (g 2)) (h3 : oracle 3 r3 = .error em)
    (h4 : oracle 4 r4 = .ok (g 4)) :
    (processFile oracle [r0, r1, r2, r3, r4] false initialState).output.rows =
      [t50Row (mergeEnrichedData r0 (g 0)), t50Row (mergeEnrichedData r1 (g 1)),
       t50Row (mergeEnrichedData r2 (g 2)), t50Row (mergeEnrichedData r4 (g 4))]
    ∧ (processFile oracle [r0, r1, r2, r3, r4] false initialState).errorLog.rows =
      [mkErrorRow 3 r3 em] := by
  constructor <;>
    simp [processFile, processTeachersIndividually, List.enumFrom, stepTeacher,
      h0, h1, h2, h3, h4, csvWrite, csvSizeZero, initialState]

/-- Closed instantiation of `claim_C2_amended`. -/
theorem claim_C2_amended_witness :
    (processFile (fun i _ => if i = 3 then Except.error "boom"
        else Except.ok ([] : List (String × PyVal)))
      [[("name", PyVal.pstr "M0")], [("name", PyVal.pstr "M1")],
       [("name", PyVal.pstr "M2")], [("name", PyVal.pstr "M3")],
       [("name", PyVal.pstr "M4")]] false initialState).errorLog.rows =
      [mkErrorRow 3 [("name", PyVal.pstr "M3")] "boom"] :=
  (claim_C2_amended _ _ _ _ _ _ (fun _ => []) "boom"
    rfl rfl rfl rfl rfl).2

/-- C3: the ranking code sorts with `reverse=True` over the key
`(not current, start)`, which puts NON-current entries first (descending on
the boolean) — the opposite of its own `# Current jobs first` comment and of
the claim.  On the spec's example the code yields
`[2022, 2015, 2020(current)]`: the current entry comes LAST, not first,
while the claim expects `[2020(current), 2022, 2015]`. -/
theorem claim_C3_ranking :
    extractEmploymentHistory c3Dict = [entry2015, entry2020, entry2022]
    ∧ sortEmploymentHistory [entry2015, entry2020, entry2022] =
        [entry2022, entry2015, entry2020]
    ∧ sortEmploymentHistory [entry2015, entry2020, entry2022] ≠
        [entry2020, entry2022, entry2015]
    ∧ (sortEmploymentHistory [entry2015, entry2020, entry2022]).headD entry2015
        ≠ entry2020 := by
  refine ⟨by decide, by decide, by decide, by decide⟩

/-- C7 counterexample: the input "GEMS Modern Academy" contains the brand
substring `'gems'`, yet with a catalog holding `Modern Academy → Indian` the
partial (substring-containment) match fires first and resolution returns
`Indian`, not the brand's `British`: the brand rules do NOT override the
catalog lookup. -/
theorem claim_C7_counterexample :
    getCurriculumForSchool "GEMS Modern Academy"
        (loadSchoolCurriculumMapping [("Modern Academy", "Indian")]) = some "Indian"
    ∧ strContainsSub "gems" (pyStrip (pyLower "GEMS Modern Academy")) = true
    ∧ some "Indian" ≠ some "British" := by
  refine ⟨by decide, by decide, by decide⟩

/-- C7 (amended): the hard-coded brand rules are a FALLBACK, applied only
when both the exact match and the substring-containment scan over the
catalog fail; in that case a name containing `'gems'` resolves to
`British`.  (Catalog entries whose own names contain the brands are instead
rewritten at load time.) -/
theorem claim_C7_amended (name : String) (mapping : List (String × String))
    (hne : name ≠ "")
    (hexact : assocGet mapping (pyStrip (pyLower name)) = none)
    (hpart : mapping.find? (fun kv =>
        strContainsSub kv.1 (pyStrip (pyLower name))
        || strContainsSub (pyStrip (pyLower name)) kv.1) = none)
    (hgems : strContainsSub "gems" (pyStrip (pyLower name)) = true) :
    getCurriculumForSchool name mapping = some "British" := by
  unfold getCurriculumForSchool
  rw [if_neg hne]
  simp only [hexact, hpart, hgems, if_true]

/-- Closed instantiation of `claim_C7_amended`. -/
theorem claim_C7_amended_witness :
    getCurriculumForSchool "gems dubai" [] = some "British" :=
  claim_C7_amended "gems dubai" [] (by decide) rfl rfl (by decide)

/-- C8 counterexample: with the API key missing, `enrich_teacher_profile`
raises a `ValueError` to its caller instead of returning defaults — an error
does propagate past the record boundary. -/
theorem claim_C8_counterexample :
    enrichTeacherProfile false (.ok []) =
      .error "OpenAI API key not found. Please set the OPENAI_API_KEY environment variable." :=
  rfl

/-- C8 (amended): except for the missing-API-key configuration check (which
raises before the `try` block), `enrich_teacher_profile` never propagates a
failure: any exception inside the `try` body yields the fixed default
profile (subject/nationality `Unknown`, grade level and curriculum
`Not specified`, `is_currently_teacher = False`, 0 years, a fixed placeholder
bio, and empty strings for school, website, country and city). -/
theorem claim_C8_amended :
    (∀ e, enrichTeacherProfile true (.error e) = .ok enrichDefaultProfile)
    ∧ (∀ r, enrichTeacherProfile true (.ok r) = .ok r)
    ∧ (∀ o, enrichTeacherProfile false o =
        .error "OpenAI API key not found. Please set the OPENAI_API_KEY environment variable.") :=
  ⟨fun _ => rfl, fun _ => rfl, fun _ => rfl⟩

/-! ### The merge rule (C9) -/
theorem mergeEnriched_frame (row : Row) (enriched : List (String × PyVal))
    (col : String)
    (hblank : ∀ v, (col, v) ∈ enriched → enrichedValueLands v = false) :
    rowGet (mergeEnrichedData row enriched) col = rowGet row col := by
  induction enriched generalizing row with
  | nil => rfl
  | cons kv rest ih =>
      have hstep : mergeEnrichedData row (kv :: rest) =
          mergeEnrichedData
            (if enrichedValueLands kv.2 then setCell row kv.1 kv.2 else row) rest := by
        simp [mergeEnrichedData]
      rw [hstep]
      by_cases hL : enrichedValueLands kv.2 = true
      · have hk : kv.1 ≠ col := by
          intro he
          have hmem : (col, kv.2) ∈ kv :: rest := by
            rw [← he, Prod.mk.eta]
            exact List.mem_cons_self kv rest
          rw [hblank kv.2 hmem] at hL
          exact Bool.false_ne_true hL
        rw [if_pos hL, ih (setCell row kv.1 kv.2)
          (fun v hv => hblank v (List.mem_cons_of_mem kv hv))]
        exact rowGet_setCell_ne row kv.1 col kv.2 (Ne.symm hk)
      · rw [if_neg hL]
        exact ih row (fun v hv => hblank v (List.mem_cons_of_mem kv hv))

theorem mergeEnriched_overwrite (row : Row) (enriched : List (String × PyVal))
    (col : String) (v : PyVal)
    (hnd : (enriched.map Prod.fst).Nodup) (hmem : (col, v) ∈ enriched)
    (hL : enrichedValueLands v = true) :
    rowGet (mergeEnrichedData row enriched) col = some v := by
  induction enriched generalizing row with
  | nil => exact absurd hmem (List.not_mem_nil _)
  | cons kv rest ih =>
      have hstep : mergeEnrichedData row (kv :: rest) =
          mergeEnrichedData
            (if enrichedValueLands kv.2 then setCell row kv.1 kv.2 else row) rest := by
        simp [mergeEnrichedData]
      rw [hstep]
      rw [List.map_cons] at hnd
      rcases List.mem_cons.mp hmem with he | hm
      · have hkv1 : kv.1 = col := by rw [← he]
        have hkv2 : kv.2 = v := by rw [← he]
        have hnotin : ∀ v', (col, v') ∉ rest := by
          intro v' hv'
          have hcolmem : col ∈ rest.map Prod.fst :=
            List.mem_map_of_mem Prod.fst hv'
          exact (List.nodup_cons.mp hnd).1 (hkv1 ▸ hcolmem)
        rw [if_pos (hkv2 ▸ hL)]
        rw [mergeEnriched_frame (setCell row kv.1 kv.2) rest col
          (fun v' hv' => absurd hv' (hnotin v'))]
        rw [hkv1, hkv2]
        exact rowGet_setCell_self row col v
      · exact ih _ (List.nodup_cons.mp hnd).2 hm

/-- C9: merging enrichment results into a record's columns leaves every
column whose enriched value is `None`/NaN or an empty/whitespace-only string
unchanged, and overwrites a column exactly when its enriched value is
non-blank. -/
theorem claim_C9_merge :
    (∀ (row : Row) (enriched : List (String × PyVal)) (col : String),
      (∀ v, (col, v) ∈ enriched → enrichedValueLands v = false) →
      rowGet (mergeEnrichedData row enriched) col = rowGet row col)
    ∧ (∀ (row : Row) (enriched : List (String × PyVal)) (col : String) (v : PyVal),
      (enriched.map Prod.fst).Nodup → (col, v) ∈ enriched →
      enrichedValueLands v = true →
      rowGet (mergeEnrichedData row enriched) col = some v) :=
  ⟨mergeEnriched_frame, mergeEnriched_overwrite⟩

/-- Closed instantiation of `claim_C9_merge`: a NaN and a whitespace-only
enriched value leave their columns unchanged; a non-blank value overwrites. -/
theorem claim_C9_merge_witness :
    rowGet (mergeEnrichedData [("bio", PyVal.pstr "old"), ("subject", PyVal.pstr "s")]
      [("bio", PyVal.pnan), ("nationality", PyVal.pstr "  "),
       ("subject", PyVal.pstr "Mathematics")]) "bio" = some (PyVal.pstr "old")
    ∧ rowGet (mergeEnrichedData [("bio", PyVal.pstr "old"), ("subject", PyVal.pstr "s")]
      [("bio", PyVal.pnan), ("nationality", PyVal.pstr "  "),
       ("subject", PyVal.pstr "Mathematics")]) "subject"
        = some (PyVal.pstr "Mathematics") := by
  constructor
  · exact claim_C9_merge.1 _ _ "bio" (by
      intro v hv
      simp only [List.mem_cons, List.not_mem_nil, or_false, Prod.mk.injEq] at hv
      rcases hv with ⟨-, rfl⟩ | ⟨hbad, -⟩ | ⟨hbad, -⟩
      · rfl
      · exact absurd hbad (by decide)
      · exact absurd hbad (by decide))
  · exact claim_C9_merge.2 _ _ "subject" (PyVal.pstr "Mathematics")
      (by decide) (by decide) (by decide)
